import Mathlib

/-!
Verification of the nipype command-line adapter layer.

The repository wraps external neuroimaging tools behind a typed parameter
interface.  Two engines are modelled here:

* the parameter-to-command-line compilation engine for the FSL tools
  (Bet, Flirt, ApplyXfm, Fnirt).  The implementation module
  `nipype/interfaces/fsl/preprocess.py` is not part of the sources, only its
  test suite is, so those definitions are modelled from the specification
  (compilation policy, render rules, derived defaults) and carry a
  `Modelled from the spec:` marker;

* the output-contract resolution engine of `nipype/interfaces/spm/model.py`
  (`EstimateModel`, `EstimateContrast`, `OneSampleTTest`, `TwoSampleTTest`,
  `MultipleRegression`), translated directly from that source file.

Filesystem effects (`glob`, `scipy.io.loadmat`) are passed in explicitly: a
glob is represented by the list of paths it matched, and a successfully
loaded SPM.mat structure by a `some` value (`none` models an absent or
unreadable file, where `sio.loadmat` raises).
-/

/-! ## Path and string helpers

These model the fragments of `os.path` used by the sources: `basename`-style
last component, `splitext`-style extension stripping, `os.path.split` head,
and `os.path.join` for a relative second component.  They are written by
structural recursion on character lists so that every theorem below can be
evaluated by the kernel.
-/

/-- Split a character list at every occurrence of `c` (like Python
`str.split`); the result is never empty. -/
def splitOnChar (c : Char) : List Char → List (List Char)
  | [] => [[]]
  | x :: xs =>
    match splitOnChar c xs with
    | [] => [[]]
    | h :: t => if x = c then [] :: h :: t else (x :: h) :: t

/-- Re-join character chunks with separator `c` (inverse of `splitOnChar`). -/
def joinChar (c : Char) : List (List Char) → List Char
  | [] => []
  | [x] => x
  | x :: y :: rest => x ++ c :: joinChar c (y :: rest)

/-- Last path component, like `os.path.basename` for paths without a
trailing slash. -/
def baseName (s : String) : String :=
  String.mk ((splitOnChar '/' s.data).getLastD s.data)

/-- Directory part, like the first component of `os.path.split` for paths
whose directory is not the filesystem root. -/
def dirName (s : String) : String :=
  String.mk (joinChar '/' ((splitOnChar '/' s.data).dropLast))

/-- Drop the extension after the last dot, like the first component of
`os.path.splitext` for ordinary file names. -/
def stripExt (s : String) : String :=
  match splitOnChar '.' s.data with
  | [] => s
  | [_] => s
  | parts => String.mk (joinChar '.' parts.dropLast)

/-- `os.path.join` for a relative second component. -/
def joinPath (d f : String) : String :=
  if d = "" then f else d ++ "/" ++ f

/-! ## Parameter Set validation

Modelled from the spec: the Parameter Descriptor / Parameter Set component
(`nipype.interfaces.base`, not among the sources).  A descriptor declares a
name, whether it is mandatory, and its mutually-exclusive peers; `finalize`
fails with `missingMandatoryParameter` naming the first unmet mandatory
descriptor in declaration order, or with `conflictingParameters` when a
bound parameter has a bound exclusive peer.
-/

/-- Modelled from the spec: a Parameter Descriptor (name, mandatory bit,
mutually-exclusive peers); render rules live in the per-tool compilers
below. -/
structure ParamDescriptor where
  name : String
  mandatory : Bool
  exclusiveWith : List String
  deriving DecidableEq

/-- A mandatory descriptor whose name has no bound value. -/
def isUnmetMandatory (bound : List String) (d : ParamDescriptor) : Bool :=
  d.mandatory && !(bound.contains d.name)

/-- A bound descriptor one of whose exclusive peers is also bound. -/
def hasExclusivityConflict (bound : List String) (d : ParamDescriptor) : Bool :=
  bound.contains d.name && d.exclusiveWith.any (fun p => bound.contains p)

/-- Validation failures of `finalize`. -/
inductive FinalizeError where
  | missingMandatoryParameter (name : String)
  | conflictingParameters (name : String) (peers : List String)
  deriving DecidableEq

/-- Modelled from the spec: `finalize` over the declared descriptors and the
set of bound parameter names.  It reports the first unmet mandatory
descriptor in declaration order, then the first exclusivity conflict, and
otherwise succeeds. -/
def finalize (descs : List ParamDescriptor) (bound : List String) :
    Except FinalizeError Unit :=
  match descs.filter (isUnmetMandatory bound) with
  | d :: _ => Except.error (FinalizeError.missingMandatoryParameter d.name)
  | [] =>
    match descs.find? (hasExclusivityConflict bound) with
    | some d => Except.error (FinalizeError.conflictingParameters d.name d.exclusiveWith)
    | none => Except.ok ()

/-! ## Numeric render rules -/

/-- Modelled from the spec: a scalar-numeric parameter value, kept as an
exact fraction (numerator over positive denominator) so that the
fixed-format render rule is a pure, total function. -/
structure DecFrac where
  num : Int
  den : Nat

/-- Modelled from the spec: the fixed two-decimal render rule for
scalar-numeric parameters (half-up rounding on the magnitude).  Total over
all values of the kind; a zero denominator renders as the empty string. -/
def formatFixed2 (v : DecFrac) : String :=
  if v.den = 0 then "" else
    let a : Nat := 100 * v.num.natAbs
    let n : Nat := (2 * a + v.den) / (2 * v.den)
    (if v.num < 0 then "-" else "") ++ toString (n / 100) ++ "." ++
      (if n % 100 < 10 then "0" else "") ++ toString (n % 100)

/-- Comma-joined rendering of a multi-value integer parameter, like
Python `forward-join of str over the list with a comma`. -/
def joinComma : List Nat → String
  | [] => ""
  | [n] => toString n
  | n :: m :: rest => toString n ++ "," ++ joinComma (m :: rest)

/-! ## FSL tool compilers

Modelled from the spec: the Command-Line Compiler together with the tool
definitions of `nipype/interfaces/fsl/preprocess.py` (absent from the
sources; only its test suite is present).  Each compiler turns the bound
parameter values into the ordered token sequence of the Compiled Command:
program name first, then positional arguments, then flag arguments in
descriptor-declaration order, with unset optional parameters skipped and
the derived output-file default resolved from the input file name, the
tool suffix and the configured output-type extension, rooted at the
current working directory.
-/

/-- Bound parameter values of the registration tool (Flirt). -/
structure FlirtParams where
  infile : Option String
  reference : Option String
  bins : Option Nat
  cost : Option String
  outfile : Option String
  outmatrix : Option String

/-- Modelled from the spec: the registration tool compiles to `flirt`
followed by `-in`, `-ref`, `-bins`, `-cost`, `-out`, `-omat` tokens for the
bound parameters, in that fixed order. -/
def flirtTokens (p : FlirtParams) : List String :=
  ["flirt"] ++
  (match p.infile with
   | some f => ["-in", f]
   | none => []) ++
  (match p.reference with
   | some r => ["-ref", r]
   | none => []) ++
  (match p.bins with
   | some b => ["-bins", toString b]
   | none => []) ++
  (match p.cost with
   | some c => ["-cost", c]
   | none => []) ++
  (match p.outfile with
   | some o => ["-out", o]
   | none => []) ++
  (match p.outmatrix with
   | some m => ["-omat", m]
   | none => [])

/-- Bound parameter values of the transform-application specialization
(ApplyXfm) of the registration tool. -/
structure ApplyXfmParams where
  infile : Option String
  reference : Option String
  inmatrix : Option String
  outfile : Option String

/-- Modelled from the spec: the specializing tool reuses the parent's
program name and `-in`/`-ref` token rules, then appends its own `-init`
token, the fixed `-applyxfm` flag, and the `-out` token whose value
defaults to the input's base name plus `_axfm` plus the configured
output-type extension rooted at the working directory `cwd`. -/
def applyXfmTokens (cwd ext : String) (p : ApplyXfmParams) : List String :=
  ["flirt"] ++
  (match p.infile with
   | some f => ["-in", f]
   | none => []) ++
  (match p.reference with
   | some r => ["-ref", r]
   | none => []) ++
  (match p.inmatrix with
   | some m => ["-init", m]
   | none => []) ++
  ["-applyxfm"] ++
  ["-out",
   match p.outfile with
   | some o => o
   | none => joinPath cwd (stripExt (baseName (p.infile.getD "")) ++ "_axfm" ++ ext)]

/-- Modelled from the spec: the brain-extraction tool (Bet) compiles to
`bet` followed by the input path, the output path (defaulting to the
input's base name plus `_brain` plus the configured output-type extension
rooted at the working directory `cwd`), then the `-f` flag with the
fractional threshold rendered in fixed two-decimal format when bound. -/
def betTokens (cwd ext : String) (infile : String) (outfile : Option String)
    (frac : Option DecFrac) : List String :=
  ["bet", infile,
   match outfile with
   | some o => o
   | none => joinPath cwd (stripExt (baseName infile) ++ "_brain" ++ ext)] ++
  (match frac with
   | some v => ["-f", formatFixed2 v]
   | none => [])

/-- Bound parameter values of the nonlinear-warp tool (Fnirt). -/
structure FnirtParams where
  infile : Option String
  reference : Option String
  sub_sampling : Option (List Nat)

/-- Modelled from the spec: the nonlinear-warp tool compiles to `fnirt`
followed by single `--name=value` tokens, the multi-value sub-sampling
parameter rendered as one comma-joined token. -/
def fnirtTokens (p : FnirtParams) : List String :=
  ["fnirt"] ++
  (match p.infile with
   | some f => ["--in=" ++ f]
   | none => []) ++
  (match p.reference with
   | some r => ["--ref=" ++ r]
   | none => []) ++
  (match p.sub_sampling with
   | some l => ["--subsamp=" ++ joinComma l]
   | none => [])

/-! ## SPM output-contract resolvers

Translated from `src/nipype/interfaces/spm/model.py`.  A loaded SPM.mat
structure is passed in as a `some` value; `none` models `sio.loadmat`
raising on an absent or unreadable file, which aborts the whole
`_list_outputs` call (`Except.error ()`).  A glob is passed in as the list
of paths it matched in the directory the source globs.
-/

/-- Sort a list of path strings, as Python `sorted` over the glob result. -/
def sortPaths (l : List String) : List String :=
  List.insertionSort (fun a b => a ≤ b) l

/-- Resolved outputs of `EstimateModel._list_outputs`
(`src/nipype/interfaces/spm/model.py:190`). -/
structure EMOutputs where
  mask_image : String
  beta_images : Option (List String)
  residual_image : String
  RPVimage : String
  spm_mat_file : String
  deriving DecidableEq

/-- The contract `EstimateModel._list_outputs` builds once `sio.loadmat`
has succeeded; `vbetas` is the list of `Vbeta` file names read from the
loaded SPM structure. -/
def emOutputsCore (spm_mat_file : String) (vbetas : List String) : EMOutputs :=
  let pth := dirName spm_mat_file
  ⟨joinPath pth "mask.img",
   if vbetas.isEmpty then none else some (vbetas.map (fun b => joinPath pth b)),
   joinPath pth "ResMS.img",
   joinPath pth "RPV.img",
   joinPath pth "SPM.mat"⟩

/-- `EstimateModel._list_outputs`: `sio.loadmat(self.inputs.spm_mat_file)`
raises when the file is absent or unreadable, aborting the whole call, so
the resolver is total only on a readable SPM.mat (`some vbetas`). -/
def EstimateModel_list_outputs (spm_mat_file : String)
    (mat : Option (List String)) : Except Unit EMOutputs :=
  match mat with
  | none => Except.error ()
  | some vbetas => Except.ok (emOutputsCore spm_mat_file vbetas)

/-- Resolved outputs of `EstimateContrast._list_outputs`
(`src/nipype/interfaces/spm/model.py:331`). -/
structure ECOutputs where
  con_images : Option (List String)
  spmT_images : Option (List String)
  ess_images : Option (List String)
  spmF_images : Option (List String)
  spm_mat_file : String
  deriving DecidableEq

/-- The contract `EstimateContrast._list_outputs` builds once `sio.loadmat`
has succeeded; `xCon` carries, per contrast of the loaded SPM structure,
the `Vcon` and `Vspm` file names, and `essGlob`/`spmfGlob` are the matches
of the `ess*.img` and `spmF*.img` globs in the SPM.mat directory. -/
def ecOutputsCore (spm_mat_file : String) (xCon : List (String × String))
    (essGlob spmfGlob : List String) : ECOutputs :=
  let pth := dirName spm_mat_file
  let con_images := xCon.map (fun c => joinPath pth c.1)
  let spmT_images := xCon.map (fun c => joinPath pth c.2)
  ⟨if con_images.isEmpty then none else some con_images,
   if con_images.isEmpty then none else some spmT_images,
   if 0 < essGlob.length then some (sortPaths essGlob) else none,
   if 0 < spmfGlob.length then some (sortPaths spmfGlob) else none,
   spm_mat_file⟩

/-- `EstimateContrast._list_outputs`: `sio.loadmat` raises on an absent or
unreadable SPM.mat, aborting the whole call. -/
def EstimateContrast_list_outputs (spm_mat_file : String)
    (mat : Option (List (String × String)))
    (essGlob spmfGlob : List String) : Except Unit ECOutputs :=
  match mat with
  | none => Except.error ()
  | some xCon => Except.ok (ecOutputsCore spm_mat_file xCon essGlob spmfGlob)

/-- Resolved outputs of `OneSampleTTest._list_outputs`
(`src/nipype/interfaces/spm/model.py:396`). -/
structure OSTOutputs where
  con_images : Option (List String)
  spmT_images : Option (List String)
  deriving DecidableEq

/-- `OneSampleTTest._list_outputs`: `conGlob`/`spmtGlob` are the matches of
the `con*.img` and `spmT*.img` globs in the working directory; an empty
match set leaves the logical name unset. -/
def OneSampleTTest_list_outputs (conGlob spmtGlob : List String) : OSTOutputs :=
  ⟨if 0 < conGlob.length then some (sortPaths conGlob) else none,
   if 0 < spmtGlob.length then some (sortPaths spmtGlob) else none⟩

/-! ## SPM contrast-specification handling

Translated from `EstimateContrast._make_matlab_command`
(`src/nipype/interfaces/spm/model.py:272`) and
`MultipleRegression._make_matlab_command`
(`src/nipype/interfaces/spm/model.py:575`).  A contrast specification is a
positionally-accessed tuple; it is modelled as a list over an arbitrary
element type, mirroring the untyped indexing `cont[0] .. cont[4]`.
-/

/-- The per-contrast record (`Bunch`) built by
`EstimateContrast._make_matlab_command`. -/
structure ContrastBunch (α : Type) where
  name : α
  stat : α
  conditions : α
  weights : Option α
  sessions : Option α
  deriving DecidableEq

/-- `EstimateContrast._make_matlab_command` per-tuple processing:
`cont[0]`, `cont[1]`, `cont[2]` are name, stat, condition list; `weights`
and `sessions` start as `None` and are overwritten from `cont[3]` when the
tuple has at least four elements and from `cont[4]` when it has at least
five.  A tuple shorter than three elements raises `IndexError` (`none`). -/
def makeContrastBunch {α : Type} (cont : List α) : Option (ContrastBunch α) :=
  match cont with
  | n :: s :: c :: rest => some ⟨n, s, c, rest.get? 0, rest.get? 1⟩
  | _ => none

/-- The per-contrast record built by
`MultipleRegression._make_matlab_command` (no session list). -/
structure RegressionBunch (α : Type) where
  name : α
  stat : α
  conditions : α
  weights : Option α
  deriving DecidableEq

/-- `MultipleRegression._make_matlab_command` per-tuple processing: name,
stat, condition list positionally, `weights` overwritten from `cont[3]`
when the tuple has at least four elements. -/
def makeRegressionBunch {α : Type} (cont : List α) : Option (RegressionBunch α) :=
  match cont with
  | n :: s :: c :: rest => some ⟨n, s, c, rest.get? 0⟩
  | _ => none

/-! ## TwoSampleTTest -/

/-- Bound inputs of `TwoSampleTTest` (`TwoSampleTTestInputSpec`). -/
structure TwoSampleTTestParams where
  images_group1 : List String
  images_group2 : List String
  dependent : Option Bool
  unequal_variance : Option Bool

/-- Resolved outputs of `TwoSampleTTest._list_outputs`
(`src/nipype/interfaces/spm/model.py:479`). -/
structure TTOutputs where
  con_images : List String
  spmT_images : List String
  deriving DecidableEq

/-- Python `'%04d' % n` for a natural number. -/
def pad4 (n : Nat) : String :=
  let s := toString n
  String.mk (List.replicate (4 - s.length) '0') ++ s

/-- `TwoSampleTTest._list_outputs`: the contract is built from the working
directory alone (`con%04d.img` and `spmT%04d.img` over `range(1, 5)`); the
bound inputs are never consulted. -/
def TwoSampleTTest_list_outputs (cwd : String) (_ : TwoSampleTTestParams) :
    TTOutputs :=
  ⟨(List.range' 1 4).map (fun i => joinPath cwd ("con" ++ pad4 i ++ ".img")),
   (List.range' 1 4).map (fun i => joinPath cwd ("spmT" ++ pad4 i ++ ".img"))⟩

/-- The names of the `consess` t-contrast entries that
`TwoSampleTTest._make_matlab_command` writes into the generated script:
four fixed contrasts, whatever the bound inputs. -/
def TwoSampleTTest_contrast_names (_ : TwoSampleTTestParams) : List String :=
  ["Group 1", "Group 2", "Group 1 - Group 2", "Group 2 - Group 1"]

/-! ## Theorems -/

/-- C1: binding the registration tool with `infile = A`, `reference = B`,
`bins = 256`, `cost = mutualinfo`, `outfile = C`, `outmatrix = D` compiles
to exactly the token sequence
`flirt -in A -ref B -bins 256 -cost mutualinfo -out C -omat D`, in that
fixed order. -/
theorem flirt_compiles_to_exact_token_sequence (A B C D : String) :
    flirtTokens ⟨some A, some B, some 256, some "mutualinfo", some C, some D⟩ =
      ["flirt", "-in", A, "-ref", B, "-bins", "256", "-cost", "mutualinfo",
       "-out", C, "-omat", D] := rfl

/-- C2: with every mandatory parameter bound except `d`, `finalize` fails
with `missingMandatoryParameter` naming exactly `d`; with every mandatory
parameter bound (and no exclusivity conflict), `finalize` succeeds. -/
theorem finalize_missing_mandatory (descs : List ParamDescriptor)
    (bound bound2 : List String) (d : ParamDescriptor)
    (hmem : d ∈ descs) (hman : d.mandatory = true)
    (hunb : bound.contains d.name = false)
    (hrest : ∀ e ∈ descs, e.mandatory = true → e.name ≠ d.name →
      bound.contains e.name = true)
    (hall : ∀ e ∈ descs, e.mandatory = true → bound2.contains e.name = true)
    (hnoconf : ∀ e ∈ descs, hasExclusivityConflict bound2 e = false) :
    finalize descs bound =
      Except.error (FinalizeError.missingMandatoryParameter d.name)
    ∧ finalize descs bound2 = Except.ok () := by
  constructor
  · have hdmem : d ∈ descs.filter (isUnmetMandatory bound) := by
      rw [List.mem_filter]
      refine ⟨hmem, ?_⟩
      unfold isUnmetMandatory
      rw [hman, hunb]
      rfl
    cases hfe : descs.filter (isUnmetMandatory bound) with
    | nil => rw [hfe] at hdmem; exact absurd hdmem (List.not_mem_nil d)
    | cons e t =>
      have hemem : e ∈ descs.filter (isUnmetMandatory bound) := by
        rw [hfe]; exact List.mem_cons_self e t
      rw [List.mem_filter] at hemem
      obtain ⟨hedesc, hpred⟩ := hemem
      have hpred' : e.mandatory = true ∧ bound.contains e.name = false := by
        simpa [isUnmetMandatory] using hpred
      have hename : e.name = d.name := by
        by_contra hne
        have hc := hrest e hedesc hpred'.1 hne
        rw [hpred'.2] at hc
        exact Bool.false_ne_true hc
      unfold finalize
      rw [hfe]
      show Except.error (FinalizeError.missingMandatoryParameter e.name) =
        Except.error (FinalizeError.missingMandatoryParameter d.name)
      rw [hename]
  · have hfe : descs.filter (isUnmetMandatory bound2) = [] := by
      rw [List.filter_eq_nil_iff]
      intro e he
      simp only [isUnmetMandatory, Bool.and_eq_true, Bool.not_eq_true',
        not_and]
      intro hm
      rw [hall e he hm]
      simp
    have hfind : descs.find? (hasExclusivityConflict bound2) = none := by
      rw [List.find?_eq_none]
      intro e he
      simp [hnoconf e he]
    unfold finalize
    rw [hfe, hfind]

/-- C2 witness: a two-descriptor tool with mandatory `infile` and
`reference`; binding only `infile` fails naming `reference`, binding both
succeeds. -/
theorem finalize_missing_mandatory_witness :
    finalize [⟨"infile", true, []⟩, ⟨"reference", true, []⟩] ["infile"] =
      Except.error (FinalizeError.missingMandatoryParameter "reference")
    ∧ finalize [⟨"infile", true, []⟩, ⟨"reference", true, []⟩]
        ["infile", "reference"] = Except.ok () :=
  finalize_missing_mandatory
    [⟨"infile", true, []⟩, ⟨"reference", true, []⟩]
    ["infile"] ["infile", "reference"] ⟨"reference", true, []⟩
    (by decide) (by decide) (by decide) (by decide) (by decide) (by decide)

/-- C3: with the input path bound and no output path bound, the
brain-extraction command's output token is the input's base name plus
`_brain` plus the configured output-type extension rooted at the working
directory (concretely, input `/data/foo.nii` with extension `.nii` yields
`foo_brain.nii` under the working directory); an explicitly bound output
path is used verbatim. -/
theorem bet_output_default_and_explicit (cwd ext infile o : String) :
    betTokens cwd ext infile none none =
      ["bet", infile,
       joinPath cwd (stripExt (baseName infile) ++ "_brain" ++ ext)]
    ∧ betTokens cwd ext infile (some o) none = ["bet", infile, o]
    ∧ betTokens cwd ".nii" "/data/foo.nii" none none =
      ["bet", "/data/foo.nii", joinPath cwd "foo_brain.nii"] := by
  refine ⟨rfl, rfl, ?_⟩
  have h : stripExt (baseName "/data/foo.nii") ++ "_brain" ++ ".nii" =
      "foo_brain.nii" := by decide
  simp [betTokens, h]

/-- C4: the parent registration tool's tokens, under the bound values the
specialization shares with it (`infile`, `reference`, `outfile`), form a
subsequence, in order, of the specialization's compiled tokens. -/
theorem applyxfm_extends_flirt_tokens (X Y M Z cwd ext : String) :
    (flirtTokens ⟨some X, some Y, none, none, some Z, none⟩).Sublist
      (applyXfmTokens cwd ext ⟨some X, some Y, some M, some Z⟩) := by
  show List.Sublist ["flirt", "-in", X, "-ref", Y, "-out", Z]
    ["flirt", "-in", X, "-ref", Y, "-init", M, "-applyxfm", "-out", Z]
  exact .cons₂ _ (.cons₂ _ (.cons₂ _ (.cons₂ _ (.cons₂ _ (.cons _
    (.cons _ (.cons _ (.cons₂ _ (.cons₂ _ .slnil)))))))))

/-- C5: binding the fractional threshold to the value 0.40 renders the
token pair `-f 0.40` in fixed two-decimal format, and that rendering is
not `0.4`. -/
theorem bet_frac_two_decimal_format (cwd ext infile o : String) :
    betTokens cwd ext infile (some o) (some ⟨40, 100⟩) =
      ["bet", infile, o, "-f", "0.40"]
    ∧ formatFixed2 ⟨40, 100⟩ ≠ "0.4" := by
  refine ⟨rfl, by decide⟩

/-- C6: binding the nonlinear-warp tool's multi-value sub-sampling
parameter to `[8, 6, 4]` renders the single comma-joined token
`--subsamp=8,6,4`. -/
theorem fnirt_subsamp_comma_joined (i r : String) :
    fnirtTokens ⟨some i, some r, some [8, 6, 4]⟩ =
      ["fnirt", "--in=" ++ i, "--ref=" ++ r, "--subsamp=8,6,4"] := by
  have h : "--subsamp=" ++ joinComma [8, 6, 4] = "--subsamp=8,6,4" := by
    decide
  simp [fnirtTokens, h]

/-- C7: a discovered-output glob that matches zero files leaves its logical
output name out of the resolved contract (no error, no empty-sequence
binding), for the `ess*`/`spmF*` globs of contrast estimation and the
`con*`/`spmT*` globs of the one-sample t-test; a glob that does match binds
the name to a sorted permutation of the matched paths. -/
theorem discovered_glob_omits_empty_sorts_nonempty
    (p : String) (xCon : List (String × String))
    (ess spmf con spmt : List String) :
    (EstimateContrast_list_outputs p (some xCon) ess spmf =
      Except.ok (ecOutputsCore p xCon ess spmf))
    ∧ ((ecOutputsCore p xCon [] spmf).ess_images = none)
    ∧ ((ecOutputsCore p xCon ess []).spmF_images = none)
    ∧ (ess ≠ [] → ∃ l, (ecOutputsCore p xCon ess spmf).ess_images = some l
        ∧ List.Sorted (fun a b => a ≤ b) l ∧ List.Perm l ess)
    ∧ (spmf ≠ [] → ∃ l, (ecOutputsCore p xCon ess spmf).spmF_images = some l
        ∧ List.Sorted (fun a b => a ≤ b) l ∧ List.Perm l spmf)
    ∧ ((OneSampleTTest_list_outputs [] spmt).con_images = none)
    ∧ ((OneSampleTTest_list_outputs con []).spmT_images = none)
    ∧ (con ≠ [] → ∃ l, (OneSampleTTest_list_outputs con spmt).con_images =
        some l ∧ List.Sorted (fun a b => a ≤ b) l ∧ List.Perm l con)
    ∧ (spmt ≠ [] → ∃ l, (OneSampleTTest_list_outputs con spmt).spmT_images =
        some l ∧ List.Sorted (fun a b => a ≤ b) l ∧ List.Perm l spmt) := by
  refine ⟨rfl, by simp [ecOutputsCore], by simp [ecOutputsCore],
    fun h => ⟨sortPaths ess, ?_, ?_, ?_⟩, fun h => ⟨sortPaths spmf, ?_, ?_, ?_⟩,
    by simp [OneSampleTTest_list_outputs],
    by simp [OneSampleTTest_list_outputs],
    fun h => ⟨sortPaths con, ?_, ?_, ?_⟩,
    fun h => ⟨sortPaths spmt, ?_, ?_, ?_⟩⟩ <;>
  first
    | exact List.sorted_insertionSort (fun a b => a ≤ b) _
    | exact List.perm_insertionSort (fun a b => a ≤ b) _
    | simp [ecOutputsCore, OneSampleTTest_list_outputs, List.length_pos.mpr h]

/-- C7 witness: with an empty `ess*` match set the logical name is absent;
with two matched `spmF*` files the name is bound to a sorted permutation of
them, and the loaded-SPM resolution succeeds. -/
theorem discovered_glob_omits_empty_sorts_nonempty_witness :
    (EstimateContrast_list_outputs "/a/SPM.mat" (some [("c1.img", "t1.img")])
      [] ["/a/spmF_0002.img", "/a/spmF_0001.img"] =
      Except.ok (ecOutputsCore "/a/SPM.mat" [("c1.img", "t1.img")]
        [] ["/a/spmF_0002.img", "/a/spmF_0001.img"]))
    ∧ ((ecOutputsCore "/a/SPM.mat" [("c1.img", "t1.img")] []
        ["/a/spmF_0002.img", "/a/spmF_0001.img"]).ess_images = none)
    ∧ (∃ l, (ecOutputsCore "/a/SPM.mat" [("c1.img", "t1.img")] []
        ["/a/spmF_0002.img", "/a/spmF_0001.img"]).spmF_images = some l
        ∧ List.Sorted (fun a b => a ≤ b) l
        ∧ List.Perm l ["/a/spmF_0002.img", "/a/spmF_0001.img"])
    ∧ ((OneSampleTTest_list_outputs [] []).con_images = none) := by
  have h := discovered_glob_omits_empty_sorts_nonempty "/a/SPM.mat"
    [("c1.img", "t1.img")] [] ["/a/spmF_0002.img", "/a/spmF_0001.img"] [] []
  exact ⟨h.1, h.2.1, h.2.2.2.2.1 (by decide), h.2.2.2.2.2.1⟩

/-- C8 counterexample: with the saved SPM.mat absent (`sio.loadmat`
raising), output resolution of model estimation and of contrast estimation
aborts as a whole — it does not return a contract in which `mask_image`,
`residual_image` or `RPVimage` resolve. -/
theorem spm_mat_absent_aborts_whole_resolution :
    EstimateModel_list_outputs "/analysis/SPM.mat" none = Except.error ()
    ∧ (EstimateModel_list_outputs "/analysis/SPM.mat" none).isOk = false
    ∧ EstimateContrast_list_outputs "/analysis/SPM.mat" none [] [] =
        Except.error ()
    ∧ (EstimateContrast_list_outputs "/analysis/SPM.mat" none [] []).isOk =
        false :=
  ⟨rfl, rfl, rfl, rfl⟩

/-- C8 amended: when the saved SPM.mat model structure is absent or
unreadable, output resolution fails for the whole contract — no logical
output name resolves, the predicted entries included; when it is readable,
the full contract resolves, with `mask_image`, `residual_image` and
`RPVimage` rooted next to the SPM.mat file. -/
theorem spm_mat_absent_fails_whole_contract (p : String) (m : List String)
    (x : List (String × String)) (ess spmf : List String) :
    EstimateModel_list_outputs p none = Except.error ()
    ∧ EstimateContrast_list_outputs p none ess spmf = Except.error ()
    ∧ EstimateModel_list_outputs p (some m) = Except.ok (emOutputsCore p m)
    ∧ EstimateContrast_list_outputs p (some x) ess spmf =
        Except.ok (ecOutputsCore p x ess spmf)
    ∧ (emOutputsCore p m).mask_image = joinPath (dirName p) "mask.img"
    ∧ (emOutputsCore p m).residual_image = joinPath (dirName p) "ResMS.img"
    ∧ (emOutputsCore p m).RPVimage = joinPath (dirName p) "RPV.img"
    ∧ (emOutputsCore p m).spm_mat_file = joinPath (dirName p) "SPM.mat" :=
  ⟨rfl, rfl, rfl, rfl, rfl, rfl, rfl, rfl⟩

/-- C9: a contrast tuple is read positionally — elements one to three are
name, stat and condition list; a fourth element, when present, becomes the
weight list and a fifth the session list; a three-element tuple yields no
weights and no sessions; tuples longer than five are still accepted, with
the trailing elements ignored, and the regression variant behaves the same
without a session slot. -/
theorem contrast_tuple_positional_overloading {α : Type}
    (n s c w x : α) (rest : List α) :
    makeContrastBunch [n, s, c] = some ⟨n, s, c, none, none⟩
    ∧ makeContrastBunch [n, s, c, w] = some ⟨n, s, c, some w, none⟩
    ∧ makeContrastBunch [n, s, c, w, x] = some ⟨n, s, c, some w, some x⟩
    ∧ makeContrastBunch (n :: s :: c :: w :: x :: rest) =
        some ⟨n, s, c, some w, some x⟩
    ∧ makeRegressionBunch [n, s, c] = some ⟨n, s, c, none⟩
    ∧ makeRegressionBunch (n :: s :: c :: w :: rest) =
        some ⟨n, s, c, some w⟩ :=
  ⟨rfl, rfl, rfl, rfl, rfl, rfl⟩

/-- C10: whatever the bound inputs of the two-sample t-test, the resolved
contract holds exactly the four predicted contrast images
`con0001.img` … `con0004.img` and the four stat images
`spmT0001.img` … `spmT0004.img` rooted at the working directory, one pair
per contrast among the four the generated script always defines. -/
theorem twosample_ttest_fixed_four_outputs (cwd : String)
    (inp : TwoSampleTTestParams) :
    (TwoSampleTTest_list_outputs cwd inp).con_images =
      [joinPath cwd "con0001.img", joinPath cwd "con0002.img",
       joinPath cwd "con0003.img", joinPath cwd "con0004.img"]
    ∧ (TwoSampleTTest_list_outputs cwd inp).spmT_images =
      [joinPath cwd "spmT0001.img", joinPath cwd "spmT0002.img",
       joinPath cwd "spmT0003.img", joinPath cwd "spmT0004.img"]
    ∧ TwoSampleTTest_contrast_names inp =
      ["Group 1", "Group 2", "Group 1 - Group 2", "Group 2 - Group 1"]
    ∧ (TwoSampleTTest_contrast_names inp).length =
      (TwoSampleTTest_list_outputs cwd inp).con_images.length := by
  have hr : List.range' 1 4 = [1, 2, 3, 4] := rfl
  have hc1 : "con" ++ pad4 1 ++ ".img" = "con0001.img" := by decide
  have hc2 : "con" ++ pad4 2 ++ ".img" = "con0002.img" := by decide
  have hc3 : "con" ++ pad4 3 ++ ".img" = "con0003.img" := by decide
  have hc4 : "con" ++ pad4 4 ++ ".img" = "con0004.img" := by decide
  have ht1 : "spmT" ++ pad4 1 ++ ".img" = "spmT0001.img" := by decide
  have ht2 : "spmT" ++ pad4 2 ++ ".img" = "spmT0002.img" := by decide
  have ht3 : "spmT" ++ pad4 3 ++ ".img" = "spmT0003.img" := by decide
  have ht4 : "spmT" ++ pad4 4 ++ ".img" = "spmT0004.img" := by decide
  refine ⟨?_, ?_, rfl, ?_⟩ <;>
    simp [TwoSampleTTest_list_outputs, TwoSampleTTest_contrast_names, hr,
      hc1, hc2, hc3, hc4, ht1, ht2, ht3, ht4]
